import Mathlib

/-!
Verification of the anomaly-detection engine of the crypto market scanner
(src/scanner.py) against its design document.

The engine is embedded shallowly: a pandas DataFrame becomes a list of rows,
a float column that may contain NaN becomes a list of Option values (none is
NaN), pandas mean/std become exact real-number statistics, and the candle
fetch becomes an oracle from symbols to an optional row list (none models
the exception path of get_ohlcv_data). Machine floats are modelled by exact
reals; the IEEE behavior of division by a zero open price, which the real
field cannot express, is modelled separately by the FloatVal layer below.
-/

namespace CryptoScanner

/-- RowCore holds the raw OHLCV columns of one fetched candle row:
timestamp, open, high, low, close, volume (src/scanner.py line 73). -/
structure RowCore where
  timestamp : Int
  open_ : ℝ
  high : ℝ
  low : ℝ
  close : ℝ
  volume : ℝ

/-- Row is one row of the DataFrame returned by get_ohlcv_data: the OHLCV
columns plus the indicator columns rsi and macd attached at lines 77-78.
An indicator entry may be NaN during warm-up; NaN is modelled as none. -/
structure Row where
  timestamp : Int
  open_ : ℝ
  high : ℝ
  low : ℝ
  close : ℝ
  volume : ℝ
  rsi : Option ℝ
  macd : Option ℝ

/-- Projection of a Row to its OHLCV columns, forgetting the indicators. -/
def Row.core (r : Row) : RowCore :=
  ⟨r.timestamp, r.open_, r.high, r.low, r.close, r.volume⟩

/-- ERow is a Row extended with the daily_return column that
calculate_daily_returns adds at line 95. -/
structure ERow extends Row where
  daily_return : ℝ

/-- Match is one record appended to high_demand_pairs at lines 175-184. -/
structure Match where
  Symbol : String
  CurrentVolume : ℝ
  NormalVolume : Option ℝ
  CurrentReturnPct : ℝ
  NormalReturnPct : Option ℝ
  RSI : Option ℝ
  MACD : Option ℝ
  Timestamp : Int

/-- MatchCore is a Match without its display-only indicator fields. -/
structure MatchCore where
  Symbol : String
  CurrentVolume : ℝ
  NormalVolume : Option ℝ
  CurrentReturnPct : ℝ
  NormalReturnPct : Option ℝ
  Timestamp : Int

/-- Projection of a Match to its non-indicator fields. -/
def Match.core (m : Match) : MatchCore :=
  ⟨m.Symbol, m.CurrentVolume, m.NormalVolume, m.CurrentReturnPct,
   m.NormalReturnPct, m.Timestamp⟩

/-- strStarts needle hay is true when needle is an initial segment of hay. -/
def strStarts : List Char → List Char → Bool
  | [], _ => true
  | _ :: _, [] => false
  | a :: as, b :: bs => a == b && strStarts as bs

/-- strHas hay needle is true when needle occurs contiguously inside hay;
it models the Python substring test needle in hay. -/
def strHas : List Char → List Char → Bool
  | [], needle => needle.isEmpty
  | hay@(_ :: t), needle => strStarts needle hay || strHas t needle

/-- symbolHasBase models the Python expression base in symbol at line 150. -/
def symbolHasBase (symbol base : String) : Bool :=
  strHas symbol.toList base.toList

/-- passesFilter models the quote-currency allow-list test at line 150. -/
def passesFilter (baseCurrencies : List String) (symbol : String) : Bool :=
  baseCurrencies.any (fun base => symbolHasBase symbol base)

noncomputable section

open Classical

/-- meanR is the arithmetic mean of a list of reals; the empty case is
guarded by optMean. -/
def meanR (l : List ℝ) : ℝ := l.sum / l.length

/-- varR is the Bessel-corrected sample variance (pandas std uses ddof 1,
dividing by n - 1). -/
def varR (l : List ℝ) : ℝ :=
  (l.map (fun x => (x - meanR l) ^ 2)).sum / ((l.length : ℝ) - 1)

/-- stdR is the Bessel-corrected sample standard deviation. -/
def stdR (l : List ℝ) : ℝ := Real.sqrt (varR l)

/-- optMean models pandas Series.mean on a NaN-free column: NaN (none) on an
empty window, the arithmetic mean otherwise. -/
def optMean (l : List ℝ) : Option ℝ :=
  if l.isEmpty then none else some (meanR l)

/-- optStd models pandas Series.std with ddof 1 on a NaN-free column: NaN
(none) when fewer than two observations are available. -/
def optStd (l : List ℝ) : Option ℝ :=
  if l.length < 2 then none else some (stdR l)

/-- optMeanOpt models pandas Series.mean with skipna on a column that may
contain NaN entries: NaN entries are dropped, and the result is NaN only
when no defined entry remains. -/
def optMeanOpt (l : List (Option ℝ)) : Option ℝ :=
  optMean (l.filterMap id)

/-- pyMax models the Python builtin max on two floats that may be NaN:
max(a, b) returns b only when b compares greater than a, so a NaN first
argument is returned unchanged and a NaN second argument is ignored. -/
def pyMax : Option ℝ → Option ℝ → Option ℝ
  | none, _ => none
  | some x, none => some x
  | some x, some y => some (max x y)

/-- optAdd is float addition with NaN propagation. -/
def optAdd : Option ℝ → Option ℝ → Option ℝ
  | some x, some y => some (x + y)
  | _, _ => none

/-- optScale is multiplication of a possibly-NaN float by a plain float. -/
def optScale (c : ℝ) (o : Option ℝ) : Option ℝ :=
  o.map (fun x => c * x)

/-- geOpt x t models the Python comparison x greater-or-equal t where t may
be NaN: every comparison against NaN is False. -/
def geOpt (x : ℝ) : Option ℝ → Prop
  | some t => t ≤ x
  | none => False

/-- roundHalfEven models Python round-half-to-even of a real to an integer. -/
def roundHalfEven (x : ℝ) : ℤ :=
  if x - ⌊x⌋ < 1 / 2 then ⌊x⌋
  else if 1 / 2 < x - ⌊x⌋ then ⌊x⌋ + 1
  else if Even ⌊x⌋ then ⌊x⌋ else ⌊x⌋ + 1

/-- roundTo d x models Python round(x, d) on exact reals. -/
def roundTo (d : ℕ) (x : ℝ) : ℝ :=
  (roundHalfEven (x * 10 ^ d) : ℝ) / 10 ^ d

/-- window l lookback models the pandas slice l.iloc[-(lookback+1):-1] at
line 109: the lookback positions immediately before the last one, with the
usual pandas clamping of an out-of-range negative start to the beginning. -/
def window {α : Type*} (l : List α) (lookback : ℕ) : List α :=
  l.dropLast.drop (l.length - (lookback + 1))

/-- dailyReturn is the value of the daily_return column of line 95:
(close - open) / open. Real division is used here; the scan-level theorems
restrict to positive opens, where this agrees with float division, and the
zero-open IEEE behavior is modelled separately by dailyReturnF. -/
def dailyReturn (r : Row) : ℝ := (r.close - r.open_) / r.open_

/-- calculate_daily_returns models CryptoScanner.calculate_daily_returns
(lines 85-96): it adds the daily_return column to every row and keeps every
existing column unchanged. -/
def calculate_daily_returns (df : List Row) : List ERow :=
  df.map (fun r => ⟨r, dailyReturn r⟩)

/-- Metrics is the dictionary built by calculate_metrics at lines 111-128.
Entries are optional because pandas statistics are NaN on degenerate
windows. The code computes std only for volume and return; for rsi and macd
it records the mean and the value at the last window position. -/
structure Metrics where
  volMean : Option ℝ
  volStd : Option ℝ
  retMean : Option ℝ
  retStd : Option ℝ
  rsiCurrent : Option ℝ
  rsiMean : Option ℝ
  macdCurrent : Option ℝ
  macdMean : Option ℝ

/-- metricsOf computes the statistics of calculate_metrics over an already
selected window of enriched rows. The rsiCurrent and macdCurrent fields
model recent_data column iloc[-1] (line 121) as getLast?.join, which is
faithful exactly when the window is nonempty, that is for lookback at
least 1: on an empty window (lookback 0) pandas instead raises an
IndexError that this embedding does not model, so the theorems below
either carry a positive-lookback hypothesis or state conclusions that do
not depend on these fields. -/
def metricsOf (w : List ERow) : Metrics where
  volMean := optMean (w.map (fun e => e.volume))
  volStd := optStd (w.map (fun e => e.volume))
  retMean := optMean (w.map (fun e => e.daily_return))
  retStd := optStd (w.map (fun e => e.daily_return))
  rsiCurrent := ((w.map (fun e => e.rsi)).getLast?).join
  rsiMean := optMeanOpt (w.map (fun e => e.rsi))
  macdCurrent := ((w.map (fun e => e.macd)).getLast?).join
  macdMean := optMeanOpt (w.map (fun e => e.macd))

/-- calculate_metrics models CryptoScanner.calculate_metrics (lines 98-130):
recent_data is the slice df.iloc[-(lookback+1):-1] and every statistic of
the returned dictionary is computed over that slice. -/
def calculate_metrics (df : List ERow) (lookback : ℕ) : Metrics :=
  metricsOf (window df lookback)

/-- effVolumeStd models line 167: max(std(volume), mean(volume) * 0.01). -/
def effVolumeStd (m : Metrics) : Option ℝ :=
  pyMax m.volStd (m.volMean.map (fun x => x * 0.01))

/-- effReturnStd models line 168: max(std(return), abs(mean(return)) * 0.01). -/
def effReturnStd (m : Metrics) : Option ℝ :=
  pyMax m.retStd (m.retMean.map (fun x => |x| * 0.01))

/-- volumeThreshold models line 170: mean(volume) + volume_mult * volume_std. -/
def volumeThreshold (m : Metrics) (volume_mult : ℝ) : Option ℝ :=
  optAdd m.volMean (optScale volume_mult (effVolumeStd m))

/-- returnThreshold models line 171: mean(return) + return_mult * return_std. -/
def returnThreshold (m : Metrics) (return_mult : ℝ) : Option ℝ :=
  optAdd m.retMean (optScale return_mult (effReturnStd m))

/-- evalSymbol models lines 158-184 for one instrument whose candle fetch
succeeded and passed the length check: enrich the rows, compute the window
statistics, and emit the Match record exactly when the current volume and
the current return both reach their thresholds. The none branch of getLast?
is unreachable, because the caller has checked that the frame is nonempty. -/
def evalSymbol (volume_mult return_mult : ℝ) (lookback : ℕ) (symbol : String)
    (df : List Row) : Option Match :=
  let edf := calculate_daily_returns df
  let m := calculate_metrics edf lookback
  match edf.getLast? with
  | none => none
  | some cur =>
    if geOpt cur.volume (volumeThreshold m volume_mult) ∧
        geOpt cur.daily_return (returnThreshold m return_mult) then
      some { Symbol := symbol,
             CurrentVolume := cur.volume,
             NormalVolume := m.volMean,
             CurrentReturnPct := roundTo 2 (cur.daily_return * 100),
             NormalReturnPct := m.retMean.map (fun x => roundTo 2 (x * 100)),
             RSI := cur.rsi.map (fun x => roundTo 2 x),
             MACD := cur.macd.map (fun x => roundTo 4 x),
             Timestamp := cur.timestamp }
    else none

/-- processSymbol models one iteration of the scan loop at lines 149-184:
the quote-currency filter, the fetch with its per-instrument failure mode
(none models the exception path of get_ohlcv_data), the length check, and
then evalSymbol. -/
def processSymbol (baseCurrencies : List String) (fetch : String → Option (List Row))
    (volume_mult return_mult : ℝ) (lookback : ℕ) (symbol : String) : Option Match :=
  if passesFilter baseCurrencies symbol then
    match fetch symbol with
    | none => none
    | some df =>
      if df.length < lookback + 1 then none
      else evalSymbol volume_mult return_mult lookback symbol df
  else none

/-- scan_markets models CryptoScanner.scan_markets (lines 132-186): iterate
the exchange symbols in order and collect the emitted Match records. -/
def scan_markets (baseCurrencies : List String) (fetch : String → Option (List Row))
    (volume_mult return_mult : ℝ) (lookback : ℕ) (symbols : List String) : List Match :=
  symbols.filterMap (processSymbol baseCurrencies fetch volume_mult return_mult lookback)

/-- FloatVal is the result of one IEEE float division: a finite value, a
signed infinity, or NaN. -/
inductive FloatVal
  | val : ℝ → FloatVal
  | inf : FloatVal
  | ninf : FloatVal
  | nan : FloatVal

/-- fdiv models IEEE float division of finite operands. -/
def fdiv (a b : ℝ) : FloatVal :=
  if b ≠ 0 then FloatVal.val (a / b)
  else if 0 < a then FloatVal.inf
  else if a < 0 then FloatVal.ninf
  else FloatVal.nan

/-- dailyReturnF is line 95 under full IEEE semantics: the pandas expression
(close - open) / open evaluated with float division, which yields a
non-finite value instead of raising when open is zero. -/
def dailyReturnF (r : Row) : FloatVal := fdiv (r.close - r.open_) r.open_

/-- calculate_daily_returns_ieee is the daily_return column as produced by
calculate_daily_returns under full IEEE semantics. -/
def calculate_daily_returns_ieee (df : List Row) : List FloatVal :=
  df.map dailyReturnF

/-- calculate_daily_returns_outcome is the outcome of one call of
calculate_daily_returns viewed through an error channel: the call always
succeeds (some), because the function body at line 95 contains no validity
check and float division does not raise. -/
def calculate_daily_returns_outcome (df : List Row) : Option (List FloatVal) :=
  some (calculate_daily_returns_ieee df)

/-! ### Concrete data used to instantiate the theorems -/

/-- mkRow builds one fetched row from its column values. -/
def mkRow (ts : Int) (o h l c v : ℝ) (rsiV macdV : Option ℝ) : Row :=
  ⟨ts, o, h, l, c, v, rsiV, macdV⟩

/-- wRowsA is the 20-observation baseline window of Scenario A: volume mean
1000 with sample std 100, daily-return mean 0.01 with sample std 0.005.
Every open is 1, so the daily return of a row is its close minus 1. -/
def wRowsA : List Row :=
  [mkRow 0 1 1 1 1.025 1300 (some 50) (some 1),
   mkRow 1 1 1 1 0.995 700 (some 50) (some 1),
   mkRow 2 1 1 1 1.0135 1070 (some 50) (some 1),
   mkRow 3 1 1 1 1.0065 930 (some 50) (some 1),
   mkRow 4 1 1 1 1.0105 1010 (some 50) (some 1),
   mkRow 5 1 1 1 1.0095 990 (some 50) (some 1),
   mkRow 6 1 1 1 1.01 1000 (some 50) (some 1),
   mkRow 7 1 1 1 1.01 1000 (some 50) (some 1),
   mkRow 8 1 1 1 1.01 1000 (some 50) (some 1),
   mkRow 9 1 1 1 1.01 1000 (some 50) (some 1),
   mkRow 10 1 1 1 1.01 1000 (some 50) (some 1),
   mkRow 11 1 1 1 1.01 1000 (some 50) (some 1),
   mkRow 12 1 1 1 1.01 1000 (some 50) (some 1),
   mkRow 13 1 1 1 1.01 1000 (some 50) (some 1),
   mkRow 14 1 1 1 1.01 1000 (some 50) (some 1),
   mkRow 15 1 1 1 1.01 1000 (some 50) (some 1),
   mkRow 16 1 1 1 1.01 1000 (some 50) (some 1),
   mkRow 17 1 1 1 1.01 1000 (some 50) (some 1),
   mkRow 18 1 1 1 1.01 1000 (some 50) (some 1),
   mkRow 19 1 1 1 1.01 1000 (some 50) (some 1)]

/-- currentA is the current observation of Scenario A: volume 1300 and
daily return 0.025. -/
def currentA : Row := mkRow 20 1 1 1 1.025 1300 (some 50) (some 1)

/-- currentB is the current observation of Scenario B: volume 1150 with the
same return as Scenario A. -/
def currentB : Row := mkRow 20 1 1 1 1.025 1150 (some 50) (some 1)

/-- dfScenarioA is the 21-candle series of Scenario A. -/
def dfScenarioA : List Row := wRowsA ++ [currentA]

/-- dfScenarioB is the 21-candle series of Scenario B. -/
def dfScenarioB : List Row := wRowsA ++ [currentB]

/-- fetchScenarioA is a market-data oracle serving Scenario A for the
single symbol of the test universe. -/
def fetchScenarioA : String → Option (List Row) :=
  fun s => if s = "BTC/USDT" then some dfScenarioA else none

/-- fetchScenarioB is a market-data oracle serving Scenario B. -/
def fetchScenarioB : String → Option (List Row) :=
  fun s => if s = "BTC/USDT" then some dfScenarioB else none

/-- wWarm is a 2-observation baseline window whose first position carries
undefined (warm-up) indicator values. -/
def wWarm : List Row :=
  [mkRow 0 1 1 1 1 100 none none,
   mkRow 1 1 1 1 1 100 (some 50) (some 1)]

/-- curWarm is a current observation far above the flat wWarm baselines. -/
def curWarm : Row := mkRow 2 1 1 1 2 300 (some 60) (some 1)

/-- dfWarm is a 3-candle series whose baseline window (lookback 2) contains
an undefined rsi entry at its first position, while the volume and return
of the current observation are far above their baselines. -/
def dfWarm : List Row := wWarm ++ [curWarm]

/-- fetchWarm serves dfWarm for the single symbol of the test universe. -/
def fetchWarm : String → Option (List Row) :=
  fun s => if s = "BTC/USDT" then some dfWarm else none

/-- wPlain is a flat 2-observation baseline window with defined indicators. -/
def wPlain : List Row :=
  [mkRow 0 1 1 1 1 100 (some 50) (some 1),
   mkRow 1 1 1 1 1 100 (some 50) (some 1)]

/-- curPlain is a current observation spiking above the wPlain baselines. -/
def curPlain : Row := mkRow 2 1 1 1 2 200 (some 60) (some 1)

/-- dfPlain is a 3-candle series with fully defined indicator columns, flat
history and a spike in the current observation. -/
def dfPlain : List Row := wPlain ++ [curPlain]

/-- fetchPlain serves dfPlain for the single symbol of the test universe. -/
def fetchPlain : String → Option (List Row) :=
  fun s => if s = "BTC/USDT" then some dfPlain else none

/-- wWarmDefined is wWarm with its undefined indicator entries replaced by
numbers; its OHLCV columns are identical to those of wWarm. -/
def wWarmDefined : List Row :=
  [mkRow 0 1 1 1 1 100 (some 40) (some 2),
   mkRow 1 1 1 1 1 100 (some 50) (some 1)]

/-- dfWarmDefined is dfWarm with defined indicators everywhere and the same
OHLCV columns. -/
def dfWarmDefined : List Row := wWarmDefined ++ [curWarm]

/-- fetchWarmDefined serves dfWarmDefined. -/
def fetchWarmDefined : String → Option (List Row) :=
  fun s => if s = "BTC/USDT" then some dfWarmDefined else none

/-- metricsC is the Scenario C metrics record: flat volume history (raw std
zero) with mean 500, and flat return history with mean 0.02. -/
def metricsC : Metrics :=
  ⟨some 500, some 0, some 0.02, some 0, some 50, some 50, some 1, some 1⟩

/-- rowFlat is a single candle used to build short series. -/
def rowFlat : Row := mkRow 0 1 1 1 1 100 (some 50) (some 1)

/-- fetchShort15 returns 15 candles for every symbol, fewer than the 21
that a lookback of 20 requires (Scenario D). -/
def fetchShort15 : String → Option (List Row) :=
  fun _ => some (List.replicate 15 rowFlat)

/-- fetchNothing is a market-data oracle on which every fetch fails. -/
def fetchNothing : String → Option (List Row) :=
  fun _ => none

/-- rowNegOpen is a candle with a negative open price: open -2, close -1. -/
def rowNegOpen : Row := mkRow 0 (-2) 1 1 (-1) 100 none none

/-- erowsSmall is a concrete 3-observation enriched series used to
instantiate the window theorem with lookback 2. -/
def erowsSmall : List ERow :=
  [⟨mkRow 0 1 1 1 1 100 (some 50) (some 1), 0⟩,
   ⟨mkRow 1 1 1 1 1 110 (some 50) (some 1), 0⟩,
   ⟨mkRow 2 1 1 1 2 300 (some 60) (some 1), 1⟩]

end

/-! ### General lemmas about the embedded operations -/

open Classical

theorem geOpt_some {x t : ℝ} : geOpt x (some t) ↔ t ≤ x := Iff.rfl

theorem geOpt_none {x : ℝ} : ¬ geOpt x none := fun h => h

theorem window_map {α β : Type*} (f : α → β) (l : List α) (lb : ℕ) :
    window (l.map f) lb = (window l lb).map f := by
  unfold window
  rw [← List.map_dropLast, List.length_map, List.map_drop]

theorem window_append {α : Type*} (p w : List α) (x : α) (lb : ℕ)
    (hw : w.length = lb) : window (p ++ (w ++ [x])) lb = w := by
  have hassoc : p ++ (w ++ [x]) = (p ++ w) ++ [x] := (List.append_assoc p w [x]).symm
  rw [window, hassoc, List.dropLast_concat]
  have hlen : ((p ++ w) ++ [x]).length - (lb + 1) = p.length := by
    simp only [List.length_append, List.length_singleton, hw]
    omega
  rw [hlen, List.drop_left]

theorem window_length {α : Type*} (l : List α) (lb : ℕ) (h : lb + 1 ≤ l.length) :
    (window l lb).length = lb := by
  unfold window
  rw [List.length_drop, List.length_dropLast]
  omega

theorem window_decomp {α : Type*} (l : List α) (lb : ℕ) (h : lb + 1 ≤ l.length) :
    ∃ p x, l = p ++ (window l lb ++ [x]) ∧ l.getLast? = some x := by
  have hne : l ≠ [] := by
    intro he
    rw [he] at h
    simp at h
  refine ⟨l.dropLast.take (l.length - (lb + 1)), l.getLast hne, ?_, ?_⟩
  · have h1 : l.dropLast.take (l.length - (lb + 1)) ++ window l lb = l.dropLast := by
      rw [window]
      exact List.take_append_drop _ _
    rw [← List.append_assoc, h1, List.dropLast_append_getLast hne]
  · exact List.getLast?_eq_getLast l hne

theorem window_of_length_succ {α : Type*} (l : List α) (lb : ℕ)
    (h : l.length = lb + 1) : window l lb = l.take lb := by
  unfold window
  rw [h, Nat.sub_self, List.drop_zero, List.dropLast_eq_take, h]
  simp

theorem calculate_daily_returns_toRow (df : List Row) :
    (calculate_daily_returns df).map ERow.toRow = df := by
  induction df with
  | nil => rfl
  | cons r t ih => simpa [calculate_daily_returns] using ih

theorem optMean_eq_some (l : List ℝ) (h : l ≠ []) : optMean l = some (meanR l) := by
  unfold optMean
  rw [if_neg]
  simpa using h

theorem optStd_eq_some (l : List ℝ) (h : 2 ≤ l.length) : optStd l = some (stdR l) := by
  unfold optStd
  rw [if_neg (by omega)]

theorem optStd_nonneg (l : List ℝ) (σ : ℝ) (h : optStd l = some σ) : 0 ≤ σ := by
  unfold optStd at h
  split at h
  · exact absurd h (by simp)
  · injection h with h1
    rw [← h1]
    exact Real.sqrt_nonneg _

theorem calculate_metrics_eq (df : List Row) (lb : ℕ) :
    calculate_metrics (calculate_daily_returns df) lb =
      { volMean := optMean ((window df lb).map (fun r => r.volume)),
        volStd := optStd ((window df lb).map (fun r => r.volume)),
        retMean := optMean ((window df lb).map (fun r => dailyReturn r)),
        retStd := optStd ((window df lb).map (fun r => dailyReturn r)),
        rsiCurrent := (((window df lb).map (fun r => r.rsi)).getLast?).join,
        rsiMean := optMeanOpt ((window df lb).map (fun r => r.rsi)),
        macdCurrent := (((window df lb).map (fun r => r.macd)).getLast?).join,
        macdMean := optMeanOpt ((window df lb).map (fun r => r.macd)) } := by
  unfold calculate_metrics metricsOf calculate_daily_returns
  rw [window_map]
  simp only [List.map_map]
  rfl

theorem volumeThreshold_some (m : Metrics) (μ σ vm : ℝ)
    (h1 : m.volMean = some μ) (h2 : m.volStd = some σ) :
    volumeThreshold m vm = some (μ + vm * max σ (μ * 0.01)) := by
  unfold volumeThreshold effVolumeStd
  rw [h1, h2]
  rfl

theorem returnThreshold_some (m : Metrics) (μ σ rm : ℝ)
    (h1 : m.retMean = some μ) (h2 : m.retStd = some σ) :
    returnThreshold m rm = some (μ + rm * max σ (|μ| * 0.01)) := by
  unfold returnThreshold effReturnStd
  rw [h1, h2]
  rfl

theorem processSymbol_eq_evalSymbol (bases : List String)
    (fetch : String → Option (List Row)) (vm rm : ℝ) (lb : ℕ) (symbol : String)
    (df : List Row) (hf : passesFilter bases symbol = true)
    (hd : fetch symbol = some df) (hl : lb + 1 ≤ df.length) :
    processSymbol bases fetch vm rm lb symbol = evalSymbol vm rm lb symbol df := by
  unfold processSymbol
  rw [if_pos hf, hd]
  show (if df.length < lb + 1 then none else evalSymbol vm rm lb symbol df) = _
  rw [if_neg (by omega)]

theorem processSymbol_none_of_fetch (bases : List String)
    (fetch : String → Option (List Row)) (vm rm : ℝ) (lb : ℕ) (symbol : String)
    (hd : fetch symbol = none) :
    processSymbol bases fetch vm rm lb symbol = none := by
  unfold processSymbol
  by_cases hf : passesFilter bases symbol
  · rw [if_pos hf, hd]
  · rw [if_neg hf]

theorem processSymbol_none_of_short (bases : List String)
    (fetch : String → Option (List Row)) (vm rm : ℝ) (lb : ℕ) (symbol : String)
    (df : List Row) (hd : fetch symbol = some df) (hl : df.length < lb + 1) :
    processSymbol bases fetch vm rm lb symbol = none := by
  unfold processSymbol
  by_cases hf : passesFilter bases symbol
  · rw [if_pos hf, hd]
    show (if df.length < lb + 1 then none else evalSymbol vm rm lb symbol df) = _
    rw [if_pos hl]
  · rw [if_neg hf]

theorem evalSymbol_symbol (vm rm : ℝ) (lb : ℕ) (symbol : String) (df : List Row)
    (rec : Match) (h : evalSymbol vm rm lb symbol df = some rec) :
    rec.Symbol = symbol := by
  simp only [evalSymbol] at h
  split at h
  · exact absurd h (by simp)
  · split at h
    · cases h
      rfl
    · exact absurd h (by simp)

theorem processSymbol_symbol (bases : List String)
    (fetch : String → Option (List Row)) (vm rm : ℝ) (lb : ℕ) (symbol : String)
    (rec : Match) (h : processSymbol bases fetch vm rm lb symbol = some rec) :
    rec.Symbol = symbol := by
  unfold processSymbol at h
  split at h
  · split at h
    · exact absurd h (by simp)
    · split at h
      · exact absurd h (by simp)
      · exact evalSymbol_symbol vm rm lb symbol _ rec h
  · exact absurd h (by simp)

theorem mem_scan_symbol_iff (bases : List String)
    (fetch : String → Option (List Row)) (vm rm : ℝ) (lb : ℕ)
    (symbols : List String) (sym : String) :
    sym ∈ (scan_markets bases fetch vm rm lb symbols).map Match.Symbol ↔
      sym ∈ symbols ∧ (processSymbol bases fetch vm rm lb sym).isSome := by
  constructor
  · intro h
    obtain ⟨rec, hrec, hsym⟩ := List.mem_map.mp h
    obtain ⟨s, hs, hps⟩ := List.mem_filterMap.mp hrec
    have hname : rec.Symbol = s := processSymbol_symbol bases fetch vm rm lb s rec hps
    have hss : s = sym := by rw [← hsym, hname]
    subst hss
    exact ⟨hs, by rw [hps]; rfl⟩
  · rintro ⟨hmem, hsome⟩
    obtain ⟨rec, hrec⟩ := Option.isSome_iff_exists.mp hsome
    exact List.mem_map.mpr ⟨rec, List.mem_filterMap.mpr ⟨sym, hmem, hrec⟩,
      processSymbol_symbol bases fetch vm rm lb sym rec hrec⟩

theorem cdr_getLast? (df : List Row) (c : Row) (hg : df.getLast? = some c) :
    (calculate_daily_returns df).getLast? = some ⟨c, dailyReturn c⟩ := by
  unfold calculate_daily_returns
  rw [List.getLast?_map, hg]
  rfl

theorem evalSymbol_isSome_iff (vm rm : ℝ) (lb : ℕ) (symbol : String)
    (df : List Row) (c : Row) (hg : df.getLast? = some c) :
    (evalSymbol vm rm lb symbol df).isSome ↔
      (geOpt c.volume
          (volumeThreshold (calculate_metrics (calculate_daily_returns df) lb) vm) ∧
        geOpt (dailyReturn c)
          (returnThreshold (calculate_metrics (calculate_daily_returns df) lb) rm)) := by
  have hge := cdr_getLast? df c hg
  simp only [evalSymbol, hge]
  split
  · next hcond => simpa using hcond
  · next hcond => simpa using hcond

theorem evalSymbol_eq_spec (vm rm : ℝ) (lb : ℕ) (symbol : String) (df : List Row)
    (c : Row) (hg : df.getLast? = some c) :
    evalSymbol vm rm lb symbol df =
      (if geOpt c.volume
            (volumeThreshold (calculate_metrics (calculate_daily_returns df) lb) vm) ∧
          geOpt (dailyReturn c)
            (returnThreshold (calculate_metrics (calculate_daily_returns df) lb) rm) then
        some { Symbol := symbol,
               CurrentVolume := c.volume,
               NormalVolume := (calculate_metrics (calculate_daily_returns df) lb).volMean,
               CurrentReturnPct := roundTo 2 (dailyReturn c * 100),
               NormalReturnPct := (calculate_metrics (calculate_daily_returns df) lb).retMean.map
                 (fun x => roundTo 2 (x * 100)),
               RSI := c.rsi.map (fun x => roundTo 2 x),
               MACD := c.macd.map (fun x => roundTo 4 x),
               Timestamp := c.timestamp }
      else none) := by
  have hge := cdr_getLast? df c hg
  simp only [evalSymbol, hge]

theorem scanRule_iff (vm rm : ℝ) (lb : ℕ) (symbol : String) (df : List Row) (c : Row)
    (hlb : 2 ≤ lb) (hl : lb + 1 ≤ df.length) (hc : df.getLast? = some c) :
    (evalSymbol vm rm lb symbol df).isSome ↔
      (meanR ((window df lb).map (fun r => r.volume)) +
          vm * max (stdR ((window df lb).map (fun r => r.volume)))
            (meanR ((window df lb).map (fun r => r.volume)) * 0.01) ≤ c.volume ∧
        meanR ((window df lb).map (fun r => dailyReturn r)) +
          rm * max (stdR ((window df lb).map (fun r => dailyReturn r)))
            (|meanR ((window df lb).map (fun r => dailyReturn r))| * 0.01) ≤ dailyReturn c) := by
  have hwl : (window df lb).length = lb := window_length df lb hl
  have hvl : ((window df lb).map (fun r => r.volume)).length = lb := by
    rw [List.length_map, hwl]
  have hrl : ((window df lb).map (fun r => dailyReturn r)).length = lb := by
    rw [List.length_map, hwl]
  have hm := calculate_metrics_eq df lb
  have h1 : (calculate_metrics (calculate_daily_returns df) lb).volMean
      = some (meanR ((window df lb).map (fun r => r.volume))) := by
    rw [hm]
    exact optMean_eq_some _ (by
      intro he
      rw [he] at hvl
      simp at hvl
      omega)
  have h2 : (calculate_metrics (calculate_daily_returns df) lb).volStd
      = some (stdR ((window df lb).map (fun r => r.volume))) := by
    rw [hm]
    exact optStd_eq_some _ (by rw [hvl]; exact hlb)
  have h3 : (calculate_metrics (calculate_daily_returns df) lb).retMean
      = some (meanR ((window df lb).map (fun r => dailyReturn r))) := by
    rw [hm]
    exact optMean_eq_some _ (by
      intro he
      rw [he] at hrl
      simp at hrl
      omega)
  have h4 : (calculate_metrics (calculate_daily_returns df) lb).retStd
      = some (stdR ((window df lb).map (fun r => dailyReturn r))) := by
    rw [hm]
    exact optStd_eq_some _ (by rw [hrl]; exact hlb)
  rw [evalSymbol_isSome_iff vm rm lb symbol df c hc,
    volumeThreshold_some _ _ _ _ h1 h2, returnThreshold_some _ _ _ _ h3 h4,
    geOpt_some, geOpt_some]

theorem geOpt_threshold_mono (x c c' μ : ℝ) (st : Option ℝ) (f : ℝ → ℝ)
    (hc : c ≤ c') (hst : ∀ σ, st = some σ → 0 ≤ σ)
    (h : geOpt x (optAdd (some μ) (optScale c' (pyMax st ((some μ).map f))))) :
    geOpt x (optAdd (some μ) (optScale c (pyMax st ((some μ).map f)))) := by
  cases st with
  | none => exact absurd h geOpt_none
  | some σ =>
    have hσ0 : 0 ≤ σ := hst σ rfl
    have he0 : 0 ≤ max σ (f μ) := le_trans hσ0 (le_max_left _ _)
    have h' : μ + c' * max σ (f μ) ≤ x := h
    show μ + c * max σ (f μ) ≤ x
    have hmul := mul_le_mul_of_nonneg_right hc he0
    linarith

theorem volumeThreshold_mono (m : Metrics) (x vm vm' : ℝ) (hv : vm ≤ vm')
    (hst : ∀ σ, m.volStd = some σ → 0 ≤ σ)
    (h : geOpt x (volumeThreshold m vm')) : geOpt x (volumeThreshold m vm) := by
  cases hμ : m.volMean with
  | none =>
    rw [volumeThreshold, hμ] at h
    exact absurd h geOpt_none
  | some μ =>
    rw [volumeThreshold, effVolumeStd, hμ] at h ⊢
    exact geOpt_threshold_mono x vm vm' μ m.volStd (fun y => y * 0.01) hv hst h

theorem returnThreshold_mono (m : Metrics) (x rm rm' : ℝ) (hr : rm ≤ rm')
    (hst : ∀ σ, m.retStd = some σ → 0 ≤ σ)
    (h : geOpt x (returnThreshold m rm')) : geOpt x (returnThreshold m rm) := by
  cases hμ : m.retMean with
  | none =>
    rw [returnThreshold, hμ] at h
    exact absurd h geOpt_none
  | some μ =>
    rw [returnThreshold, effReturnStd, hμ] at h ⊢
    exact geOpt_threshold_mono x rm rm' μ m.retStd (fun y => |y| * 0.01) hr hst h

theorem cm_volStd_nonneg (df : List Row) (lb : ℕ) (σ : ℝ)
    (h : (calculate_metrics (calculate_daily_returns df) lb).volStd = some σ) : 0 ≤ σ := by
  rw [calculate_metrics_eq] at h
  exact optStd_nonneg _ σ h

theorem cm_retStd_nonneg (df : List Row) (lb : ℕ) (σ : ℝ)
    (h : (calculate_metrics (calculate_daily_returns df) lb).retStd = some σ) : 0 ≤ σ := by
  rw [calculate_metrics_eq] at h
  exact optStd_nonneg _ σ h

theorem evalSymbol_mono (vm vm' rm rm' : ℝ) (lb : ℕ) (symbol : String)
    (df : List Row) (rec : Match) (hvm : vm ≤ vm') (hrm : rm ≤ rm')
    (h : evalSymbol vm' rm' lb symbol df = some rec) :
    evalSymbol vm rm lb symbol df = some rec := by
  cases hg : df.getLast? with
  | none =>
    have hge : (calculate_daily_returns df).getLast? = none := by
      unfold calculate_daily_returns
      rw [List.getLast?_map, hg]
      rfl
    simp only [evalSymbol, hge] at h
    exact absurd h (by simp)
  | some c =>
    rw [evalSymbol_eq_spec vm' rm' lb symbol df c hg] at h
    rw [evalSymbol_eq_spec vm rm lb symbol df c hg]
    split at h
    · next hcond =>
      cases h
      rw [if_pos ⟨volumeThreshold_mono _ _ _ _ hvm (cm_volStd_nonneg df lb) hcond.1,
        returnThreshold_mono _ _ _ _ hrm (cm_retStd_nonneg df lb) hcond.2⟩]
    · exact absurd h (by simp)

theorem map_ite_option {β γ : Type*} (P : Prop) [Decidable P] (R : β) (f : β → γ) :
    (if P then some R else none).map f = if P then some (f R) else none := by
  split <;> rfl

theorem map_core_proj {β : Type*} (g : RowCore → β) (df df' : List Row)
    (h : df.map Row.core = df'.map Row.core) :
    df.map (fun r => g r.core) = df'.map (fun r => g r.core) := by
  have h1 : df.map (fun r => g r.core) = (df.map Row.core).map g := by
    rw [List.map_map]
    rfl
  have h2 : df'.map (fun r => g r.core) = (df'.map Row.core).map g := by
    rw [List.map_map]
    rfl
  rw [h1, h2, h]

theorem evalSymbol_core_congr (vm rm : ℝ) (lb : ℕ) (symbol : String)
    (df df' : List Row) (h : df.map Row.core = df'.map Row.core) :
    (evalSymbol vm rm lb symbol df).map Match.core
      = (evalSymbol vm rm lb symbol df').map Match.core := by
  have hvol : df.map (fun r => r.volume) = df'.map (fun r => r.volume) :=
    map_core_proj (fun k => k.volume) df df' h
  have hret : df.map (fun r => dailyReturn r) = df'.map (fun r => dailyReturn r) :=
    map_core_proj (fun k => (k.close - k.open_) / k.open_) df df' h
  have hwvol : (window df lb).map (fun r => r.volume)
      = (window df' lb).map (fun r => r.volume) := by
    rw [← window_map, ← window_map, hvol]
  have hwret : (window df lb).map (fun r => dailyReturn r)
      = (window df' lb).map (fun r => dailyReturn r) := by
    rw [← window_map, ← window_map, hret]
  have h1 : (calculate_metrics (calculate_daily_returns df) lb).volMean
      = (calculate_metrics (calculate_daily_returns df') lb).volMean := by
    rw [calculate_metrics_eq, calculate_metrics_eq]
    exact congrArg optMean hwvol
  have h2 : (calculate_metrics (calculate_daily_returns df) lb).volStd
      = (calculate_metrics (calculate_daily_returns df') lb).volStd := by
    rw [calculate_metrics_eq, calculate_metrics_eq]
    exact congrArg optStd hwvol
  have h3 : (calculate_metrics (calculate_daily_returns df) lb).retMean
      = (calculate_metrics (calculate_daily_returns df') lb).retMean := by
    rw [calculate_metrics_eq, calculate_metrics_eq]
    exact congrArg optMean hwret
  have h4 : (calculate_metrics (calculate_daily_returns df) lb).retStd
      = (calculate_metrics (calculate_daily_returns df') lb).retStd := by
    rw [calculate_metrics_eq, calculate_metrics_eq]
    exact congrArg optStd hwret
  have hTv : volumeThreshold (calculate_metrics (calculate_daily_returns df) lb) vm
      = volumeThreshold (calculate_metrics (calculate_daily_returns df') lb) vm := by
    unfold volumeThreshold effVolumeStd
    rw [h1, h2]
  have hTr : returnThreshold (calculate_metrics (calculate_daily_returns df) lb) rm
      = returnThreshold (calculate_metrics (calculate_daily_returns df') lb) rm := by
    unfold returnThreshold effReturnStd
    rw [h3, h4]
  have hlast : (df.getLast?).map Row.core = (df'.getLast?).map Row.core := by
    rw [← List.getLast?_map, ← List.getLast?_map, h]
  cases hg : df.getLast? with
  | none =>
    have hg' : df'.getLast? = none := by
      rw [hg] at hlast
      cases hE : df'.getLast? with
      | none => rfl
      | some k =>
        rw [hE] at hlast
        simp at hlast
    have e1 : (calculate_daily_returns df).getLast? = none := by
      unfold calculate_daily_returns
      rw [List.getLast?_map, hg]
      rfl
    have e2 : (calculate_daily_returns df').getLast? = none := by
      unfold calculate_daily_returns
      rw [List.getLast?_map, hg']
      rfl
    simp only [evalSymbol, e1, e2]
  | some c =>
    rw [hg] at hlast
    obtain ⟨c', hg', hcore⟩ : ∃ c', df'.getLast? = some c' ∧ c.core = c'.core := by
      cases hE : df'.getLast? with
      | none =>
        rw [hE] at hlast
        simp at hlast
      | some k =>
        rw [hE] at hlast
        simp at hlast
        exact ⟨k, rfl, hlast⟩
    have hcv : c.volume = c'.volume := congrArg RowCore.volume hcore
    have hcr : dailyReturn c = dailyReturn c' :=
      congrArg (fun k => (k.close - k.open_) / k.open_) hcore
    have hct : c.timestamp = c'.timestamp := congrArg RowCore.timestamp hcore
    rw [evalSymbol_eq_spec vm rm lb symbol df c hg,
      evalSymbol_eq_spec vm rm lb symbol df' c' hg']
    rw [hTv, hTr, hcv, hcr, hct, h1, h3]
    rw [map_ite_option, map_ite_option]
    split
    · rfl
    · rfl

theorem scan_core_congr (bases : List String)
    (fetch fetch' : String → Option (List Row)) (vm rm : ℝ) (lb : ℕ)
    (symbols : List String)
    (hfetch : ∀ s, (fetch s).map (List.map Row.core)
      = (fetch' s).map (List.map Row.core)) :
    (scan_markets bases fetch vm rm lb symbols).map Match.core
      = (scan_markets bases fetch' vm rm lb symbols).map Match.core := by
  unfold scan_markets
  rw [List.map_filterMap, List.map_filterMap]
  apply List.filterMap_congr
  intro s _hs
  unfold processSymbol
  by_cases hf : passesFilter bases s
  · rw [if_pos hf, if_pos hf]
    have hfs := hfetch s
    cases hd : fetch s with
    | none =>
      have hd' : fetch' s = none := by
        rw [hd] at hfs
        cases hE : fetch' s with
        | none => rfl
        | some w =>
          rw [hE] at hfs
          simp at hfs
      simp only [hd, hd', Option.map_none']
    | some df =>
      rw [hd] at hfs
      obtain ⟨df', hd', hcoreEq⟩ : ∃ df', fetch' s = some df'
          ∧ df.map Row.core = df'.map Row.core := by
        cases hE : fetch' s with
        | none =>
          rw [hE] at hfs
          simp at hfs
        | some w =>
          rw [hE] at hfs
          simp at hfs
          exact ⟨w, rfl, hfs⟩
      have hlen : df.length = df'.length := by
        have := congrArg List.length hcoreEq
        simpa using this
      simp only [hd, hd']
      by_cases hchk : df.length < lb + 1
      · rw [if_pos hchk, if_pos (by omega)]
      · rw [if_neg hchk, if_neg (by omega)]
        exact evalSymbol_core_congr vm rm lb s df df' hcoreEq
  · rw [if_neg hf, if_neg hf]

/-! ### Claim theorems -/

/-- C1: for every enriched series of length at least lookback+1 and every
positive lookback, calculate_metrics computes each of its statistics over
the window of exactly lookback observations immediately preceding the last
observation: the series decomposes as a prefix, the window, and the last
observation, so the last observation is never inside the window; for a
series of length exactly lookback+1 the window is the first lookback
observations. -/
theorem C1_baseline_window (df : List ERow) (lb : ℕ)
    (hpos : 1 ≤ lb) (hlen : lb + 1 ≤ df.length) :
    (∃ p x, df = p ++ (window df lb ++ [x]) ∧ df.getLast? = some x)
      ∧ (window df lb).length = lb
      ∧ (df.length = lb + 1 → window df lb = df.take lb)
      ∧ calculate_metrics df lb = metricsOf (window df lb) :=
  ⟨window_decomp df lb hlen, window_length df lb hlen,
   fun h => window_of_length_succ df lb h, rfl⟩

/-- C1 witness: the window theorem instantiated on a concrete enriched
series of length 3 with lookback 2. -/
theorem C1_baseline_window_witness :
    ((1:ℕ) ≤ 2 ∧ 2 + 1 ≤ erowsSmall.length)
      ∧ ((∃ p x, erowsSmall = p ++ (window erowsSmall 2 ++ [x])
            ∧ erowsSmall.getLast? = some x)
        ∧ (window erowsSmall 2).length = 2
        ∧ (erowsSmall.length = 2 + 1 → window erowsSmall 2 = erowsSmall.take 2)
        ∧ calculate_metrics erowsSmall 2 = metricsOf (window erowsSmall 2)) := by
  have hl : 2 + 1 ≤ erowsSmall.length := by simp [erowsSmall]
  exact ⟨⟨by norm_num, hl⟩, C1_baseline_window erowsSmall 2 (by norm_num) hl⟩

/-- C9: the series builder is a pure transformation of its input series:
projecting the enriched series back to its raw columns returns the input
unchanged (every candle and every existing column is preserved), the
length is preserved, and the added column is the return formula of the
candle it was computed from. -/
theorem C9_series_builder_pure (df : List Row) :
    (calculate_daily_returns df).map ERow.toRow = df
      ∧ (calculate_daily_returns df).length = df.length
      ∧ ∀ e ∈ calculate_daily_returns df,
          e.daily_return = (e.close - e.open_) / e.open_ := by
  refine ⟨calculate_daily_returns_toRow df, by simp [calculate_daily_returns], ?_⟩
  intro e he
  unfold calculate_daily_returns at he
  obtain ⟨r, _hr, hre⟩ := List.mem_map.mp he
  rw [← hre]
  rfl

/-- C9 witness: the purity theorem instantiated on a one-candle series,
with the membership hypothesis of its last conjunct discharged on the
single enriched row. -/
theorem C9_series_builder_pure_witness :
    (calculate_daily_returns [rowFlat]).map ERow.toRow = [rowFlat]
      ∧ (⟨rowFlat, dailyReturn rowFlat⟩ : ERow) ∈ calculate_daily_returns [rowFlat]
      ∧ (⟨rowFlat, dailyReturn rowFlat⟩ : ERow).daily_return
          = ((⟨rowFlat, dailyReturn rowFlat⟩ : ERow).close
              - (⟨rowFlat, dailyReturn rowFlat⟩ : ERow).open_)
            / (⟨rowFlat, dailyReturn rowFlat⟩ : ERow).open_ := by
  have hmem : (⟨rowFlat, dailyReturn rowFlat⟩ : ERow) ∈ calculate_daily_returns [rowFlat] := by
    simp [calculate_daily_returns]
  exact ⟨(C9_series_builder_pure [rowFlat]).1, hmem,
    (C9_series_builder_pure [rowFlat]).2.2 _ hmem⟩

/-- C5 counterexample: a candle with a negative (hence non-positive) open
does not make the series builder fail: calculate_daily_returns succeeds on
the one-candle series and produces the enriched series with the finite
return value (close - open) / open = -1/2, contradicting the claim that a
zero-or-negative open raises a ComputationError and rejects the series. -/
theorem C5_counterexample :
    rowNegOpen.open_ ≤ 0
      ∧ calculate_daily_returns_outcome [rowNegOpen]
          = some [FloatVal.val (-(1 : ℝ) / 2)] := by
  constructor
  · norm_num [rowNegOpen, mkRow]
  · unfold calculate_daily_returns_outcome calculate_daily_returns_ieee
      dailyReturnF fdiv rowNegOpen mkRow
    norm_num

/-- C5 amended: the series builder never fails: on every series it succeeds
and computes the daily return of every candle with float division, a zero
open yielding a non-finite value rather than an error; in particular on
every series whose opens are all positive it succeeds with
daily_return = (close - open) / open for every candle. -/
theorem C5_series_builder_total (df : List Row) :
    calculate_daily_returns_outcome df = some (df.map dailyReturnF)
      ∧ ((∀ r ∈ df, 0 < r.open_) →
          calculate_daily_returns_outcome df
            = some (df.map (fun r => FloatVal.val ((r.close - r.open_) / r.open_)))) := by
  refine ⟨rfl, ?_⟩
  intro hpos
  unfold calculate_daily_returns_outcome calculate_daily_returns_ieee
  congr 1
  apply List.map_congr_left
  intro r hr
  unfold dailyReturnF fdiv
  rw [if_pos (ne_of_gt (hpos r hr))]

/-- C5 amended witness: the totality theorem instantiated on a one-candle
series with a positive open. -/
theorem C5_series_builder_total_witness :
    (∀ r ∈ [rowFlat], 0 < r.open_)
      ∧ calculate_daily_returns_outcome [rowFlat]
          = some ([rowFlat].map (fun r => FloatVal.val ((r.close - r.open_) / r.open_))) := by
  have hpos : ∀ r ∈ [rowFlat], 0 < r.open_ := by
    intro r hr
    simp only [List.mem_singleton] at hr
    subst hr
    norm_num [rowFlat, mkRow]
  exact ⟨hpos, (C5_series_builder_total [rowFlat]).2 hpos⟩

/-- C3: the effective standard deviations of the scan are
max(std(volume), mean(volume) * 0.01) and
max(std(return), abs(mean(return)) * 0.01); for a window of zero raw std,
the effective volume std (volume means are non-negative by the data model)
and the effective return std are strictly positive exactly when the
corresponding mean is non-zero, and zero exactly when the mean is zero. -/
theorem C3_effective_std (m : Metrics) (σv σr μv μr : ℝ)
    (hv : m.volStd = some σv) (hmv : m.volMean = some μv)
    (hr : m.retStd = some σr) (hmr : m.retMean = some μr) (hμv0 : 0 ≤ μv) :
    effVolumeStd m = some (max σv (μv * 0.01))
      ∧ effReturnStd m = some (max σr (|μr| * 0.01))
      ∧ (σv = 0 → (effVolumeStd m = some (μv * 0.01) ∧ (0 < μv * 0.01 ↔ μv ≠ 0)))
      ∧ (σr = 0 → (effReturnStd m = some (|μr| * 0.01) ∧ (0 < |μr| * 0.01 ↔ μr ≠ 0))) := by
  have e1 : effVolumeStd m = some (max σv (μv * 0.01)) := by
    unfold effVolumeStd
    rw [hv, hmv]
    rfl
  have e2 : effReturnStd m = some (max σr (|μr| * 0.01)) := by
    unfold effReturnStd
    rw [hr, hmr]
    rfl
  refine ⟨e1, e2, ?_, ?_⟩
  · intro h0
    subst h0
    refine ⟨by rw [e1, max_eq_right (by linarith)], ?_, ?_⟩
    · intro hlt heq
      rw [heq] at hlt
      norm_num at hlt
    · intro hne
      have hpos : 0 < μv := lt_of_le_of_ne hμv0 (Ne.symm hne)
      linarith
  · intro h0
    subst h0
    refine ⟨by rw [e2, max_eq_right (by positivity)], ?_, ?_⟩
    · intro hlt heq
      rw [heq] at hlt
      norm_num at hlt
    · intro hne
      have hpos : 0 < |μr| := abs_pos.mpr hne
      linarith

/-- C3 witness: the effective-std theorem instantiated on the Scenario C
metrics (flat volume history, mean 500): the effective volume std is the
floor 500 * 0.01 = 5, which is strictly positive. -/
theorem C3_effective_std_witness :
    (metricsC.volStd = some 0 ∧ metricsC.volMean = some 500 ∧ (0:ℝ) ≤ 500)
      ∧ effVolumeStd metricsC = some ((500:ℝ) * 0.01)
      ∧ (0 < (500:ℝ) * 0.01 ↔ (500:ℝ) ≠ 0) := by
  have h := C3_effective_std metricsC 0 0 500 0.02 rfl rfl rfl rfl (by norm_num)
  exact ⟨⟨rfl, rfl, by norm_num⟩, (h.2.2.1 rfl).1, (h.2.2.1 rfl).2⟩

/-- C6: a per-instrument fetch failure, or a fetch result shorter than
lookback+1 candles, makes the scan skip that instrument silently: the
instrument yields no record, its symbol is absent from the scan output for
every universe, and deleting it from the universe leaves the scan output
unchanged, so the scan continues with the remaining instruments. -/
theorem C6_fetch_failure_skipped (bases : List String)
    (fetch : String → Option (List Row)) (vm rm : ℝ) (lb : ℕ) (sym : String)
    (hfail : fetch sym = none ∨ ∃ df, fetch sym = some df ∧ df.length < lb + 1) :
    processSymbol bases fetch vm rm lb sym = none
      ∧ (∀ symbols : List String,
          sym ∉ (scan_markets bases fetch vm rm lb symbols).map Match.Symbol)
      ∧ (∀ pre post : List String,
          scan_markets bases fetch vm rm lb (pre ++ sym :: post)
            = scan_markets bases fetch vm rm lb (pre ++ post)) := by
  have hnone : processSymbol bases fetch vm rm lb sym = none := by
    rcases hfail with h | ⟨df, hd, hl⟩
    · exact processSymbol_none_of_fetch bases fetch vm rm lb sym h
    · exact processSymbol_none_of_short bases fetch vm rm lb sym df hd hl
  refine ⟨hnone, ?_, ?_⟩
  · intro symbols hmem
    obtain ⟨_, hsome⟩ := (mem_scan_symbol_iff bases fetch vm rm lb symbols sym).mp hmem
    rw [hnone] at hsome
    exact absurd hsome (by simp)
  · intro pre post
    unfold scan_markets
    rw [List.filterMap_append, List.filterMap_append, List.filterMap_cons, hnone]

/-- C6 witness: Scenario D: with lookback 20 a fetch returning only 15
candles makes the instrument absent from the scan output. -/
theorem C6_fetch_failure_skipped_witness :
    (fetchShort15 "BTC/USDT" = some (List.replicate 15 rowFlat)
        ∧ (List.replicate 15 rowFlat).length < 20 + 1)
      ∧ processSymbol ["USDT"] fetchShort15 2 2 20 "BTC/USDT" = none
      ∧ "BTC/USDT" ∉
          (scan_markets ["USDT"] fetchShort15 2 2 20 ["BTC/USDT"]).map Match.Symbol := by
  have h := C6_fetch_failure_skipped ["USDT"] fetchShort15 2 2 20 "BTC/USDT"
    (Or.inr ⟨List.replicate 15 rowFlat, rfl, by simp⟩)
  exact ⟨⟨rfl, by simp⟩, h.1, h.2.1 ["BTC/USDT"]⟩

/-- C4: raising either multiplier can only shrink the Match set: over a
fixed universe and fixed fetched data (with positive opens, as the data
model guarantees), every Match record emitted by the scan at the higher
non-negative multipliers is also emitted at the lower ones. -/
theorem C4_multiplier_monotone (bases : List String)
    (fetch : String → Option (List Row)) (vm vm' rm rm' : ℝ) (lb : ℕ)
    (symbols : List String)
    (hvm0 : 0 ≤ vm) (hrm0 : 0 ≤ rm) (hvm : vm ≤ vm') (hrm : rm ≤ rm')
    (hopen : ∀ s df, fetch s = some df → ∀ r ∈ df, 0 < r.open_) :
    ∀ rec ∈ scan_markets bases fetch vm' rm' lb symbols,
      rec ∈ scan_markets bases fetch vm rm lb symbols := by
  intro rec hrec
  obtain ⟨s, hs, hps⟩ := List.mem_filterMap.mp hrec
  apply List.mem_filterMap.mpr
  refine ⟨s, hs, ?_⟩
  unfold processSymbol at hps ⊢
  by_cases hf : passesFilter bases s
  · rw [if_pos hf] at hps ⊢
    cases hd : fetch s with
    | none =>
      simp only [hd] at hps
      exact absurd hps (by simp)
    | some df =>
      simp only [hd] at hps ⊢
      by_cases hchk : df.length < lb + 1
      · rw [if_pos hchk] at hps
        exact absurd hps (by simp)
      · rw [if_neg hchk] at hps ⊢
        exact evalSymbol_mono vm vm' rm rm' lb s df rec hvm hrm hps
  · rw [if_neg hf] at hps
    exact absurd hps (by simp)

/-- C4 witness: the monotonicity theorem instantiated on the one-symbol
flat-history universe, multipliers 1 raised to 2. -/
theorem C4_multiplier_monotone_witness :
    ((0:ℝ) ≤ 1 ∧ (1:ℝ) ≤ 2 ∧ (∀ s df, fetchPlain s = some df → ∀ r ∈ df, 0 < r.open_))
      ∧ ∀ rec ∈ scan_markets ["USDT"] fetchPlain 2 2 2 ["BTC/USDT"],
          rec ∈ scan_markets ["USDT"] fetchPlain 1 1 2 ["BTC/USDT"] := by
  have hopen : ∀ s df, fetchPlain s = some df → ∀ r ∈ df, 0 < r.open_ := by
    intro s df hdf r hr
    unfold fetchPlain at hdf
    split at hdf
    · cases hdf
      simp [dfPlain, wPlain, curPlain, mkRow] at hr
      rcases hr with h | h | h <;> (subst h; norm_num)
    · exact absurd hdf (by simp)
  exact ⟨⟨by norm_num, by norm_num, hopen⟩,
    C4_multiplier_monotone ["USDT"] fetchPlain 1 2 1 2 2 ["BTC/USDT"]
      (by norm_num) (by norm_num) (by norm_num) (by norm_num) hopen⟩

/-- C8 counterexample: a scan invoked with the invalid configuration of
negative multipliers (volume and return multiplier both -1) does not fail
and does not return an empty or error result: on a one-symbol universe it
runs to completion and even emits a Match for the symbol, so no
ConfigurationError is raised for a negative multiplier. -/
theorem C8_counterexample :
    "BTC/USDT" ∈
        (scan_markets ["USDT"] fetchPlain (-1) (-1) 2 ["BTC/USDT"]).map Match.Symbol
      ∧ scan_markets ["USDT"] fetchPlain (-1) (-1) 2 ["BTC/USDT"] ≠ [] := by
  have hf : passesFilter ["USDT"] "BTC/USDT" = true := by decide
  have hd : fetchPlain "BTC/USDT" = some dfPlain := by
    unfold fetchPlain
    rw [if_pos rfl]
  have hlen : 2 + 1 ≤ dfPlain.length := by simp [dfPlain, wPlain]
  have hlast : dfPlain.getLast? = some curPlain := by
    rw [dfPlain]
    exact List.getLast?_concat _
  have hw : window dfPlain 2 = wPlain := by
    rw [dfPlain]
    exact window_append [] wPlain curPlain 2 rfl
  have hvl : (window dfPlain 2).map (fun r => r.volume) = [(100:ℝ), 100] := by
    rw [hw]
    norm_num [wPlain, mkRow]
  have hrl : (window dfPlain 2).map (fun r => dailyReturn r) = [(0:ℝ), 0] := by
    rw [hw]
    norm_num [wPlain, mkRow, dailyReturn]
  have hsv : stdR [(100:ℝ), 100] = 0 := by
    have h : varR [(100:ℝ), 100] = 0 := by norm_num [varR, meanR]
    rw [stdR, h, Real.sqrt_zero]
  have hsr : stdR [(0:ℝ), 0] = 0 := by
    have h : varR [(0:ℝ), 0] = 0 := by norm_num [varR, meanR]
    rw [stdR, h, Real.sqrt_zero]
  have hmem : "BTC/USDT" ∈
      (scan_markets ["USDT"] fetchPlain (-1) (-1) 2 ["BTC/USDT"]).map Match.Symbol := by
    rw [mem_scan_symbol_iff]
    refine ⟨by simp, ?_⟩
    rw [processSymbol_eq_evalSymbol ["USDT"] fetchPlain (-1) (-1) 2 "BTC/USDT" dfPlain
      hf hd hlen]
    rw [scanRule_iff (-1) (-1) 2 "BTC/USDT" dfPlain curPlain (by norm_num) hlen hlast]
    rw [hvl, hrl, hsv, hsr]
    norm_num [meanR, curPlain, mkRow, dailyReturn, max_def]
  refine ⟨hmem, ?_⟩
  intro hE
  rw [hE] at hmem
  simp at hmem

/-- C8 amended: scan_markets validates nothing about its configuration and
has no configuration-error path: for every multiplier pair (negative
values included) and every positive lookback it does not fail and returns
the Match sequence determined instrument by instrument; membership of a
symbol in the output is characterized uniformly by the filter, fetch,
length and threshold conditions. Lookback 0 is outside this statement:
there the code dies with an IndexError raised inside calculate_metrics,
a path this embedding does not model, and in any case not with the
ConfigurationError the original claim asserts. -/
theorem C8_no_config_validation (bases : List String)
    (fetch : String → Option (List Row)) (vm rm : ℝ) (lb : ℕ)
    (symbols : List String) (sym : String) (hlb : 1 ≤ lb) :
    sym ∈ (scan_markets bases fetch vm rm lb symbols).map Match.Symbol ↔
      sym ∈ symbols ∧ passesFilter bases sym = true
        ∧ ∃ df, fetch sym = some df ∧ lb + 1 ≤ df.length
            ∧ (evalSymbol vm rm lb sym df).isSome := by
  rw [mem_scan_symbol_iff]
  constructor
  · rintro ⟨hmem, hsome⟩
    refine ⟨hmem, ?_⟩
    by_cases hf : passesFilter bases sym
    · refine ⟨hf, ?_⟩
      cases hd : fetch sym with
      | none =>
        rw [processSymbol_none_of_fetch bases fetch vm rm lb sym hd] at hsome
        exact absurd hsome (by simp)
      | some df =>
        by_cases hl : df.length < lb + 1
        · rw [processSymbol_none_of_short bases fetch vm rm lb sym df hd hl] at hsome
          exact absurd hsome (by simp)
        · refine ⟨df, rfl, by omega, ?_⟩
          rw [processSymbol_eq_evalSymbol bases fetch vm rm lb sym df hf hd (by omega)]
            at hsome
          exact hsome
    · unfold processSymbol at hsome
      rw [if_neg hf] at hsome
      exact absurd hsome (by simp)
  · rintro ⟨hmem, hf, df, hd, hl, hev⟩
    refine ⟨hmem, ?_⟩
    rw [processSymbol_eq_evalSymbol bases fetch vm rm lb sym df hf hd hl]
    exact hev

/-- C8 amended witness: the no-validation characterization instantiated at
the invalid configuration of negative multipliers with lookback 2 on the
one-symbol flat-history universe. -/
theorem C8_no_config_validation_witness :
    (1:ℕ) ≤ 2
      ∧ ("BTC/USDT" ∈
            (scan_markets ["USDT"] fetchPlain (-1) (-1) 2 ["BTC/USDT"]).map Match.Symbol ↔
          "BTC/USDT" ∈ ["BTC/USDT"] ∧ passesFilter ["USDT"] "BTC/USDT" = true
            ∧ ∃ df, fetchPlain "BTC/USDT" = some df ∧ 2 + 1 ≤ df.length
                ∧ (evalSymbol (-1) (-1) 2 "BTC/USDT" df).isSome) :=
  ⟨by norm_num,
   C8_no_config_validation ["USDT"] fetchPlain (-1) (-1) 2 ["BTC/USDT"] "BTC/USDT"
     (by norm_num)⟩

/-- C2: for every instrument that passes the filter and the length check
(on data with positive opens, per the data model), a Match is emitted
exactly when the unrounded current volume and current return both reach
mean + mult * max(std, floor) over the window statistics; concretely, on
Scenario A (window volume mean 1000 and std 100, current volume 1300,
window return mean 0.01 and std 0.005, current return 0.025, multipliers
2) the instrument is matched, and on Scenario B (current volume 1150
instead) it is not. -/
theorem C2_anomaly_rule :
    (∀ (bases : List String) (fetch : String → Option (List Row)) (vm rm : ℝ)
        (lb : ℕ) (symbols : List String) (sym : String) (df : List Row) (c : Row),
      2 ≤ lb → passesFilter bases sym = true → fetch sym = some df →
        lb + 1 ≤ df.length → df.getLast? = some c → sym ∈ symbols →
        (∀ r ∈ df, 0 < r.open_) →
        (sym ∈ (scan_markets bases fetch vm rm lb symbols).map Match.Symbol ↔
          (meanR ((window df lb).map (fun r => r.volume)) +
              vm * max (stdR ((window df lb).map (fun r => r.volume)))
                (meanR ((window df lb).map (fun r => r.volume)) * 0.01) ≤ c.volume ∧
            meanR ((window df lb).map (fun r => dailyReturn r)) +
              rm * max (stdR ((window df lb).map (fun r => dailyReturn r)))
                (|meanR ((window df lb).map (fun r => dailyReturn r))| * 0.01)
              ≤ (c.close - c.open_) / c.open_)))
      ∧ "BTC/USDT" ∈
          (scan_markets ["USDT"] fetchScenarioA 2 2 20 ["BTC/USDT"]).map Match.Symbol
      ∧ "BTC/USDT" ∉
          (scan_markets ["USDT"] fetchScenarioB 2 2 20 ["BTC/USDT"]).map Match.Symbol := by
  have hfA : passesFilter ["USDT"] "BTC/USDT" = true := by decide
  have hdA : fetchScenarioA "BTC/USDT" = some dfScenarioA := by
    unfold fetchScenarioA
    rw [if_pos rfl]
  have hdB : fetchScenarioB "BTC/USDT" = some dfScenarioB := by
    unfold fetchScenarioB
    rw [if_pos rfl]
  have hlenA : 20 + 1 ≤ dfScenarioA.length := by simp [dfScenarioA, wRowsA]
  have hlenB : 20 + 1 ≤ dfScenarioB.length := by simp [dfScenarioB, wRowsA]
  have hlastA : dfScenarioA.getLast? = some currentA := by
    rw [dfScenarioA]
    exact List.getLast?_concat _
  have hlastB : dfScenarioB.getLast? = some currentB := by
    rw [dfScenarioB]
    exact List.getLast?_concat _
  have hwA : window dfScenarioA 20 = wRowsA := by
    rw [dfScenarioA]
    exact window_append [] wRowsA currentA 20 rfl
  have hwB : window dfScenarioB 20 = wRowsA := by
    rw [dfScenarioB]
    exact window_append [] wRowsA currentB 20 rfl
  have hvl : wRowsA.map (fun r => r.volume) =
      [(1300:ℝ), 700, 1070, 930, 1010, 990, 1000, 1000, 1000, 1000, 1000, 1000,
       1000, 1000, 1000, 1000, 1000, 1000, 1000, 1000] := by
    norm_num [wRowsA, mkRow]
  have hrl : wRowsA.map (fun r => dailyReturn r) =
      [(0.025:ℝ), -0.005, 0.0135, 0.0065, 0.0105, 0.0095, 0.01, 0.01, 0.01, 0.01, 0.01,
       0.01, 0.01, 0.01, 0.01, 0.01, 0.01, 0.01, 0.01, 0.01] := by
    norm_num [wRowsA, mkRow, dailyReturn]
  have hμv : meanR [(1300:ℝ), 700, 1070, 930, 1010, 990, 1000, 1000, 1000, 1000, 1000,
      1000, 1000, 1000, 1000, 1000, 1000, 1000, 1000, 1000] = 1000 := by
    norm_num [meanR]
  have hσv : stdR [(1300:ℝ), 700, 1070, 930, 1010, 990, 1000, 1000, 1000, 1000, 1000,
      1000, 1000, 1000, 1000, 1000, 1000, 1000, 1000, 1000] = 100 := by
    have h : varR [(1300:ℝ), 700, 1070, 930, 1010, 990, 1000, 1000, 1000, 1000, 1000,
        1000, 1000, 1000, 1000, 1000, 1000, 1000, 1000, 1000] = 10000 := by
      norm_num [varR, meanR]
    rw [stdR, h, show (10000:ℝ) = 100 ^ 2 by norm_num,
      Real.sqrt_sq (by norm_num : (0:ℝ) ≤ 100)]
  have hμr : meanR [(0.025:ℝ), -0.005, 0.0135, 0.0065, 0.0105, 0.0095, 0.01, 0.01, 0.01,
      0.01, 0.01, 0.01, 0.01, 0.01, 0.01, 0.01, 0.01, 0.01, 0.01, 0.01] = 0.01 := by
    norm_num [meanR]
  have hσr : stdR [(0.025:ℝ), -0.005, 0.0135, 0.0065, 0.0105, 0.0095, 0.01, 0.01, 0.01,
      0.01, 0.01, 0.01, 0.01, 0.01, 0.01, 0.01, 0.01, 0.01, 0.01, 0.01] = 0.005 := by
    have h : varR [(0.025:ℝ), -0.005, 0.0135, 0.0065, 0.0105, 0.0095, 0.01, 0.01, 0.01,
        0.01, 0.01, 0.01, 0.01, 0.01, 0.01, 0.01, 0.01, 0.01, 0.01, 0.01] = 0.000025 := by
      norm_num [varR, meanR]
    rw [stdR, h, show (0.000025:ℝ) = 0.005 ^ 2 by norm_num,
      Real.sqrt_sq (by norm_num : (0:ℝ) ≤ 0.005)]
  have habs : |(0.01:ℝ)| = 0.01 := abs_of_nonneg (by norm_num)
  refine ⟨?_, ?_, ?_⟩
  · intro bases fetch vm rm lb symbols sym df c hlb hf hd hl hc hmem _hopens
    rw [mem_scan_symbol_iff]
    simp only [hmem, true_and]
    rw [processSymbol_eq_evalSymbol bases fetch vm rm lb sym df hf hd hl]
    exact scanRule_iff vm rm lb sym df c hlb hl hc
  · rw [mem_scan_symbol_iff]
    refine ⟨by simp, ?_⟩
    rw [processSymbol_eq_evalSymbol ["USDT"] fetchScenarioA 2 2 20 "BTC/USDT" dfScenarioA
      hfA hdA hlenA]
    rw [scanRule_iff 2 2 20 "BTC/USDT" dfScenarioA currentA (by norm_num) hlenA hlastA]
    rw [hwA, hvl, hrl, hμv, hσv, hμr, hσr, habs]
    norm_num [currentA, mkRow, dailyReturn, max_def]
  · intro hmemB
    rw [mem_scan_symbol_iff] at hmemB
    obtain ⟨_, hsomeB⟩ := hmemB
    rw [processSymbol_eq_evalSymbol ["USDT"] fetchScenarioB 2 2 20 "BTC/USDT" dfScenarioB
      hfA hdB hlenB] at hsomeB
    rw [scanRule_iff 2 2 20 "BTC/USDT" dfScenarioB currentB (by norm_num) hlenB hlastB]
      at hsomeB
    rw [hwB, hvl, hμv, hσv] at hsomeB
    have hcontra := hsomeB.1
    norm_num [currentB, mkRow, max_def] at hcontra

/-- C2 witness: the general rule instantiated on a concrete one-symbol
universe with a flat 2-observation window and a spiking current candle. -/
theorem C2_anomaly_rule_witness :
    ((2:ℕ) ≤ 2 ∧ passesFilter ["USDT"] "BTC/USDT" = true
      ∧ fetchPlain "BTC/USDT" = some dfPlain ∧ 2 + 1 ≤ dfPlain.length
      ∧ dfPlain.getLast? = some curPlain ∧ (∀ r ∈ dfPlain, 0 < r.open_))
    ∧ ("BTC/USDT" ∈ (scan_markets ["USDT"] fetchPlain 2 2 2 ["BTC/USDT"]).map Match.Symbol ↔
        (meanR ((window dfPlain 2).map (fun r => r.volume)) +
            2 * max (stdR ((window dfPlain 2).map (fun r => r.volume)))
              (meanR ((window dfPlain 2).map (fun r => r.volume)) * 0.01)
            ≤ curPlain.volume ∧
          meanR ((window dfPlain 2).map (fun r => dailyReturn r)) +
            2 * max (stdR ((window dfPlain 2).map (fun r => dailyReturn r)))
              (|meanR ((window dfPlain 2).map (fun r => dailyReturn r))| * 0.01)
            ≤ (curPlain.close - curPlain.open_) / curPlain.open_)) := by
  have hf : passesFilter ["USDT"] "BTC/USDT" = true := by decide
  have hd : fetchPlain "BTC/USDT" = some dfPlain := by
    unfold fetchPlain
    rw [if_pos rfl]
  have hlen : 2 + 1 ≤ dfPlain.length := by simp [dfPlain, wPlain]
  have hlast : dfPlain.getLast? = some curPlain := by
    rw [dfPlain]
    exact List.getLast?_concat _
  have hopen : ∀ r ∈ dfPlain, 0 < r.open_ := by
    intro r hr
    simp [dfPlain, wPlain, curPlain, mkRow] at hr
    rcases hr with h | h | h <;> (subst h; norm_num)
  exact ⟨⟨by norm_num, hf, hd, hlen, hlast, hopen⟩,
    C2_anomaly_rule.1 ["USDT"] fetchPlain 2 2 2 ["BTC/USDT"] "BTC/USDT" dfPlain curPlain
      (by norm_num) hf hd hlen hlast (by simp) hopen⟩

/-- C7 counterexample: an instrument whose baseline window contains an
undefined (warm-up) indicator value is not skipped by the anomaly test:
the first window position of dfWarm has an undefined rsi, yet the symbol
appears in the Match output of the scan. -/
theorem C7_counterexample :
    (∃ r ∈ window dfWarm 2, r.rsi = none)
      ∧ "BTC/USDT" ∈ (scan_markets ["USDT"] fetchWarm 2 2 2 ["BTC/USDT"]).map Match.Symbol := by
  have hw : window dfWarm 2 = wWarm := by
    rw [dfWarm]
    exact window_append [] wWarm curWarm 2 rfl
  have hf : passesFilter ["USDT"] "BTC/USDT" = true := by decide
  have hd : fetchWarm "BTC/USDT" = some dfWarm := by
    unfold fetchWarm
    rw [if_pos rfl]
  have hlen : 2 + 1 ≤ dfWarm.length := by simp [dfWarm, wWarm]
  have hlast : dfWarm.getLast? = some curWarm := by
    rw [dfWarm]
    exact List.getLast?_concat _
  have hvl : (window dfWarm 2).map (fun r => r.volume) = [(100:ℝ), 100] := by
    rw [hw]
    norm_num [wWarm, mkRow]
  have hrl : (window dfWarm 2).map (fun r => dailyReturn r) = [(0:ℝ), 0] := by
    rw [hw]
    norm_num [wWarm, mkRow, dailyReturn]
  have hsv : stdR [(100:ℝ), 100] = 0 := by
    have h : varR [(100:ℝ), 100] = 0 := by norm_num [varR, meanR]
    rw [stdR, h, Real.sqrt_zero]
  have hsr : stdR [(0:ℝ), 0] = 0 := by
    have h : varR [(0:ℝ), 0] = 0 := by norm_num [varR, meanR]
    rw [stdR, h, Real.sqrt_zero]
  refine ⟨⟨mkRow 0 1 1 1 1 100 none none, ?_, rfl⟩, ?_⟩
  · rw [hw]
    simp [wWarm]
  · rw [mem_scan_symbol_iff]
    refine ⟨by simp, ?_⟩
    rw [processSymbol_eq_evalSymbol ["USDT"] fetchWarm 2 2 2 "BTC/USDT" dfWarm hf hd hlen]
    rw [scanRule_iff 2 2 2 "BTC/USDT" dfWarm curWarm (by norm_num) hlen hlast]
    rw [hvl, hrl, hsv, hsr]
    norm_num [meanR, curWarm, mkRow, dailyReturn, max_def]

/-- C7 amended: an undefined (warm-up) indicator value inside the baseline
window does not cause a skip: the indicator columns play no role in the
anomaly decision, and an instrument whose window contains an undefined
rsi or macd entry is matched under exactly the same volume and return
conditions as any other instrument. -/
theorem C7_warmup_not_skipped (bases : List String)
    (fetch : String → Option (List Row)) (vm rm : ℝ) (lb : ℕ)
    (symbols : List String) (sym : String) (df : List Row) (c : Row)
    (hundef : ∃ r ∈ window df lb, r.rsi = none ∨ r.macd = none)
    (hlb : 2 ≤ lb) (hf : passesFilter bases sym = true) (hd : fetch sym = some df)
    (hl : lb + 1 ≤ df.length) (hc : df.getLast? = some c) (hmem : sym ∈ symbols) :
    sym ∈ (scan_markets bases fetch vm rm lb symbols).map Match.Symbol ↔
      (meanR ((window df lb).map (fun r => r.volume)) +
          vm * max (stdR ((window df lb).map (fun r => r.volume)))
            (meanR ((window df lb).map (fun r => r.volume)) * 0.01) ≤ c.volume ∧
        meanR ((window df lb).map (fun r => dailyReturn r)) +
          rm * max (stdR ((window df lb).map (fun r => dailyReturn r)))
            (|meanR ((window df lb).map (fun r => dailyReturn r))| * 0.01)
          ≤ dailyReturn c) := by
  rw [mem_scan_symbol_iff]
  simp only [hmem, true_and]
  rw [processSymbol_eq_evalSymbol bases fetch vm rm lb sym df hf hd hl]
  exact scanRule_iff vm rm lb sym df c hlb hl hc

/-- C7 amended witness: the amended theorem instantiated on the warm-up
series dfWarm whose window carries an undefined rsi entry. -/
theorem C7_warmup_not_skipped_witness :
    ((∃ r ∈ window dfWarm 2, r.rsi = none ∨ r.macd = none)
      ∧ (2:ℕ) ≤ 2 ∧ passesFilter ["USDT"] "BTC/USDT" = true
      ∧ fetchWarm "BTC/USDT" = some dfWarm ∧ 2 + 1 ≤ dfWarm.length
      ∧ dfWarm.getLast? = some curWarm)
    ∧ ("BTC/USDT" ∈ (scan_markets ["USDT"] fetchWarm 2 2 2 ["BTC/USDT"]).map Match.Symbol ↔
        (meanR ((window dfWarm 2).map (fun r => r.volume)) +
            2 * max (stdR ((window dfWarm 2).map (fun r => r.volume)))
              (meanR ((window dfWarm 2).map (fun r => r.volume)) * 0.01)
            ≤ curWarm.volume ∧
          meanR ((window dfWarm 2).map (fun r => dailyReturn r)) +
            2 * max (stdR ((window dfWarm 2).map (fun r => dailyReturn r)))
              (|meanR ((window dfWarm 2).map (fun r => dailyReturn r))| * 0.01)
            ≤ dailyReturn curWarm)) := by
  have hw : window dfWarm 2 = wWarm := by
    rw [dfWarm]
    exact window_append [] wWarm curWarm 2 rfl
  have hundef : ∃ r ∈ window dfWarm 2, r.rsi = none ∨ r.macd = none := by
    refine ⟨mkRow 0 1 1 1 1 100 none none, ?_, Or.inl rfl⟩
    rw [hw]
    simp [wWarm]
  have hf : passesFilter ["USDT"] "BTC/USDT" = true := by decide
  have hd : fetchWarm "BTC/USDT" = some dfWarm := by
    unfold fetchWarm
    rw [if_pos rfl]
  have hlen : 2 + 1 ≤ dfWarm.length := by simp [dfWarm, wWarm]
  have hlast : dfWarm.getLast? = some curWarm := by
    rw [dfWarm]
    exact List.getLast?_concat _
  exact ⟨⟨hundef, by norm_num, hf, hd, hlen, hlast⟩,
    C7_warmup_not_skipped ["USDT"] fetchWarm 2 2 2 ["BTC/USDT"] "BTC/USDT" dfWarm curWarm
      hundef (by norm_num) hf hd hlen hlast (by simp)⟩

/-- C10: the anomaly decision and every non-indicator field of a Match are
independent of the rsi and macd columns: two fetch oracles that agree on
the OHLCV columns of every instrument, differing arbitrarily in the
indicator columns, produce scans with identical symbol, volume, return and
timestamp data; in particular the matched symbol sequences are equal. -/
theorem C10_indicator_noninterference (bases : List String)
    (fetch fetch' : String → Option (List Row)) (vm rm : ℝ) (lb : ℕ)
    (symbols : List String)
    (hagree : ∀ s, (fetch s).map (List.map Row.core)
      = (fetch' s).map (List.map Row.core)) :
    (scan_markets bases fetch vm rm lb symbols).map Match.core
        = (scan_markets bases fetch' vm rm lb symbols).map Match.core
      ∧ (scan_markets bases fetch vm rm lb symbols).map Match.Symbol
        = (scan_markets bases fetch' vm rm lb symbols).map Match.Symbol := by
  have h := scan_core_congr bases fetch fetch' vm rm lb symbols hagree
  refine ⟨h, ?_⟩
  have h1 : (scan_markets bases fetch vm rm lb symbols).map Match.Symbol
      = ((scan_markets bases fetch vm rm lb symbols).map Match.core).map
          (fun k => k.Symbol) := by
    rw [List.map_map]
    rfl
  have h2 : (scan_markets bases fetch' vm rm lb symbols).map Match.Symbol
      = ((scan_markets bases fetch' vm rm lb symbols).map Match.core).map
          (fun k => k.Symbol) := by
    rw [List.map_map]
    rfl
  rw [h1, h2, h]

/-- C10 witness: the noninterference theorem instantiated on two oracles
serving the same OHLCV data where one has undefined warm-up indicators and
the other has numeric indicators everywhere. -/
theorem C10_indicator_noninterference_witness :
    (∀ s, (fetchWarm s).map (List.map Row.core)
        = (fetchWarmDefined s).map (List.map Row.core))
      ∧ (scan_markets ["USDT"] fetchWarm 2 2 2 ["BTC/USDT"]).map Match.core
          = (scan_markets ["USDT"] fetchWarmDefined 2 2 2 ["BTC/USDT"]).map Match.core := by
  have hagree : ∀ s, (fetchWarm s).map (List.map Row.core)
      = (fetchWarmDefined s).map (List.map Row.core) := by
    intro s
    unfold fetchWarm fetchWarmDefined
    by_cases h : s = "BTC/USDT"
    · rw [if_pos h, if_pos h]
      simp [dfWarm, dfWarmDefined, wWarm, wWarmDefined, curWarm, Row.core, mkRow]
    · rw [if_neg h, if_neg h]
  exact ⟨hagree, (C10_indicator_noninterference ["USDT"] fetchWarm fetchWarmDefined
    2 2 2 ["BTC/USDT"] hagree).1⟩

end CryptoScanner
